import Mathlib

/-!
# netlab: verification of the PING/PONG servers and clients

Shallow embedding of the netlab repository (`server.py`, `tcp_client.py`,
`udp_client.py`): a stateless PING→PONG / anything-else→ERR protocol served
over TCP (stream) and UDP (datagram), plus client-side ping primitives and a
concurrency-bounded runner.

Payloads are modelled as decoded strings.  Network nondeterminism (which
reply arrives, when tasks are scheduled) is modelled by explicit environment
parameters; the cooperative asyncio scheduler of the runner is modelled as a
deterministic step function driven by an explicit schedule of scheduler
choices, which ranges over all interleavings the single-threaded event loop
can produce.
-/

namespace Netlab

/-! ## Python string trimming

`str.strip()` with no argument removes leading and trailing whitespace; for
the ASCII payloads of this protocol these are the six ASCII whitespace
characters. -/

def pyIsSpace (c : Char) : Bool :=
  c = ' ' || c = '\t' || c = '\n' || c = '\r' || c = '\x0b' || c = '\x0c'

def pyStrip (s : String) : String :=
  (((s.toList.dropWhile pyIsSpace).reverse.dropWhile pyIsSpace).reverse).asString

/-! ## Server side (`server.py`)

`handle_tcp` reads one chunk; an empty read means the peer closed without
sending, and the handler closes with no reply.  Otherwise it decodes, strips
and compares against `"PING"`, replying `"PONG\n"` or `"ERR\n"` and closing.
`PongUDP.datagram_received` strips and classifies each datagram and sends the
bare literal back with no delimiter. -/

inductive TcpAction where
  | write (bytes : String)
  | close
deriving DecidableEq

inductive UdpAction where
  | sendto (bytes : String)
deriving DecidableEq

def handle_tcp (data : String) : List TcpAction :=
  if data = "" then [TcpAction.close]
  else if pyStrip data = "PING" then [TcpAction.write "PONG\n", TcpAction.close]
  else [TcpAction.write "ERR\n", TcpAction.close]

def datagram_received (data : String) : List UdpAction :=
  if pyStrip data = "PING" then [UdpAction.sendto "PONG"]
  else [UdpAction.sendto "ERR"]

/-! ## Client ping primitives (`tcp_client.tcp_ping`, `udp_client.udp_ping`)

A Python float result is either NaN (the failure sentinel) or a number,
modelled as a rational.  The outcome of one network exchange is an
environment value: which failure occurred, or the reply payload, together
with the two `time.perf_counter()` readings taken at the `start = ...` and
`end = ...` lines. -/

inductive PyFloat where
  | nan
  | num (val : ℚ)
deriving DecidableEq

inductive TcpExchange where
  | connectError
  | timeout
  | reply (data : String)
deriving DecidableEq

structure TcpEnv where
  exch : TcpExchange
  tStart : ℚ
  tEnd : ℚ
deriving DecidableEq

def tcp_ping (e : TcpEnv) : PyFloat :=
  match e.exch with
  | TcpExchange.connectError => PyFloat.nan
  | TcpExchange.timeout => PyFloat.nan
  | TcpExchange.reply d =>
      if pyStrip d ≠ "PONG" then PyFloat.nan
      else PyFloat.num (e.tEnd - e.tStart)

inductive UdpExchange where
  | socketError
  | timeout
  | recvError
  | reply (data : String)
deriving DecidableEq

structure UdpEnv where
  exch : UdpExchange
  tStart : ℚ
  tEnd : ℚ
deriving DecidableEq

def udp_ping (e : UdpEnv) : PyFloat :=
  match e.exch with
  | UdpExchange.socketError => PyFloat.nan
  | UdpExchange.timeout => PyFloat.nan
  | UdpExchange.recvError => PyFloat.nan
  | UdpExchange.reply d =>
      if pyStrip d ≠ "PONG" then PyFloat.nan
      else PyFloat.num (e.tEnd - e.tStart)

/-- An exchange environment on which `tcp_ping` fails: connect refused or
OS-level connect error, timeout, or reply-content mismatch. -/
def tcpEnvFails (e : TcpEnv) : Bool :=
  match e.exch with
  | TcpExchange.connectError => true
  | TcpExchange.timeout => true
  | TcpExchange.reply d => pyStrip d != "PONG"

/-- An exchange environment on which `udp_ping` fails: socket creation
failure, timeout, socket-level receive error, or reply-content mismatch. -/
def udpEnvFails (e : UdpEnv) : Bool :=
  match e.exch with
  | UdpExchange.socketError => true
  | UdpExchange.timeout => true
  | UdpExchange.recvError => true
  | UdpExchange.reply d => pyStrip d != "PONG"

/-! ## Operation traces of the ping primitives

The order of the observable operations each primitive performs, straight
from the source: `tcp_ping` records `start = time.perf_counter()` before
`asyncio.open_connection`, and `udp_ping` records `start` before
`loop.create_datagram_endpoint` (whose `connection_made` callback sends the
datagram). -/

inductive PingAct where
  | recordStart
  | openConnection
  | writeMessage
  | createSocket
  | sendDatagram
  | awaitReply
  | recordEnd
  | closeTransport
deriving DecidableEq

def tcp_ping_trace (e : TcpEnv) : List PingAct :=
  PingAct.recordStart :: PingAct.openConnection ::
    (match e.exch with
     | TcpExchange.connectError => []
     | TcpExchange.timeout =>
         [PingAct.writeMessage, PingAct.awaitReply, PingAct.closeTransport]
     | TcpExchange.reply _ =>
         [PingAct.writeMessage, PingAct.awaitReply, PingAct.recordEnd,
          PingAct.closeTransport])

def udp_ping_trace (e : UdpEnv) : List PingAct :=
  PingAct.recordStart :: PingAct.createSocket ::
    (match e.exch with
     | UdpExchange.socketError => []
     | UdpExchange.timeout =>
         [PingAct.sendDatagram, PingAct.awaitReply, PingAct.closeTransport]
     | UdpExchange.recvError =>
         [PingAct.sendDatagram, PingAct.awaitReply, PingAct.closeTransport]
     | UdpExchange.reply _ =>
         [PingAct.sendDatagram, PingAct.awaitReply, PingAct.recordEnd,
          PingAct.closeTransport])

/-- `a` occurs strictly before `b` in the trace `tr`. -/
def before (a b : PingAct) (tr : List PingAct) : Prop :=
  tr.indexOf a < tr.indexOf b

theorem before_of_head (a b : PingAct) (rest : List PingAct) (hne : a ≠ b) :
    before a b (a :: rest) := by
  unfold before
  rw [List.indexOf_cons_self, List.indexOf_cons_ne rest hne]
  exact Nat.succ_pos _

/-! ## The concurrency-bounded runner (`run_many`, identical in both clients)

`run_many` short-circuits `count <= 0` to `[]`, clamps
`concurrency = max(1, concurrency)`, then creates `count` asyncio tasks.  In
burst mode every task runs its exchange immediately; otherwise each task
first waits on a semaphore initialised to the clamped concurrency, runs its
exchange, and the permit is released when the `async with` block exits.  Each
task appends the ping result to the shared list in completion order, and
`asyncio.gather` waits for all of them.

The single-threaded event loop is modelled as a state machine: `queued`
holds tasks blocked on the semaphore, `inflight` holds tasks whose exchange
has started, `permits` is the semaphore value, `results` the shared list.
A schedule is a list of scheduler choices: `acquire` admits the head of the
semaphore queue (asyncio semaphores are FIFO) when a permit is free, and
`complete k` finishes the `k`-th in-flight exchange, appending its result
and releasing the permit.  The exchange outcome of attempt `i` is given by
an environment `p : ℕ → PyFloat` (instantiated with `tcp_ping`/`udp_ping`
over per-attempt exchange environments). -/

structure RunState where
  queued : List ℕ
  inflight : List ℕ
  results : List PyFloat
  permits : ℕ
deriving DecidableEq

inductive Choice where
  | acquire
  | complete (k : ℕ)
deriving DecidableEq

def step (p : ℕ → PyFloat) (s : RunState) : Choice → RunState
  | Choice.acquire =>
      match s with
      | ⟨i :: q, fl, r, n + 1⟩ => ⟨q, fl ++ [i], r, n⟩
      | _ => s
  | Choice.complete k =>
      if h : k < s.inflight.length then
        ⟨s.queued, s.inflight.eraseIdx k,
         s.results ++ [p (s.inflight.get ⟨k, h⟩)], s.permits + 1⟩
      else s

def exec (p : ℕ → PyFloat) (s : RunState) (sched : List Choice) : RunState :=
  sched.foldl (step p) s

/-- Initial runner state after task creation: in burst mode all `count`
exchanges start at once (no admission control); in throttled mode all tasks
queue on the semaphore, whose value is the clamped concurrency. -/
def initState (count : ℕ) (permits0 : ℕ) (burst : Bool) : RunState :=
  if burst then ⟨[], List.range count, [], 0⟩
  else ⟨List.range count, [], [], permits0⟩

/-- `asyncio.gather` has returned: no task is queued or in flight. -/
def Final (s : RunState) : Bool :=
  s.queued.isEmpty && s.inflight.isEmpty

def runnerResults (count : ℕ) (concurrency : ℤ) (burst : Bool)
    (p : ℕ → PyFloat) (sched : List Choice) : List PyFloat :=
  (exec p (initState count (max 1 concurrency).toNat burst) sched).results

def runnerFinal (count : ℕ) (concurrency : ℤ) (burst : Bool)
    (p : ℕ → PyFloat) (sched : List Choice) : Bool :=
  Final (exec p (initState count (max 1 concurrency).toNat burst) sched)

/-- `run_many(host, port, count, concurrency, message, timeout, burst)`:
the host, port, message and timeout arguments only parameterise the
per-attempt exchange environment `p`; the schedule `sched` resolves the
event-loop nondeterminism. -/
def run_many (count concurrency : ℤ) (burst : Bool)
    (p : ℕ → PyFloat) (sched : List Choice) : List PyFloat :=
  if count ≤ 0 then []
  else runnerResults count.toNat concurrency burst p sched

/-! ### Runner invariants -/

/-- Each step preserves the total number of pending, running and finished
attempts. -/
theorem step_total_length (p : ℕ → PyFloat) (s : RunState) (c : Choice) :
    (step p s c).results.length + (step p s c).inflight.length +
      (step p s c).queued.length =
    s.results.length + s.inflight.length + s.queued.length := by
  cases c with
  | acquire =>
      obtain ⟨q, fl, r, n⟩ := s
      cases q with
      | nil => cases n <;> rfl
      | cons i q =>
          cases n with
          | zero => rfl
          | succ m => simp [step]; omega
  | complete k =>
      by_cases h : k < s.inflight.length
      · simp only [step, dif_pos h, List.length_append, List.length_cons,
          List.length_nil]
        have := List.length_eraseIdx_add_one h
        omega
      · simp [step, dif_neg h]

/-- Each step preserves the permit-accounting sum `permits + |inflight|`:
admission takes exactly one permit, completion returns exactly one. -/
theorem step_permit_sum (p : ℕ → PyFloat) (s : RunState) (c : Choice) :
    (step p s c).permits + (step p s c).inflight.length =
    s.permits + s.inflight.length := by
  cases c with
  | acquire =>
      obtain ⟨q, fl, r, n⟩ := s
      cases q with
      | nil => cases n <;> rfl
      | cons i q =>
          cases n with
          | zero => rfl
          | succ m => simp [step]; omega
  | complete k =>
      by_cases h : k < s.inflight.length
      · simp only [step, dif_pos h]
        have := List.length_eraseIdx_add_one h
        omega
      · simp [step, dif_neg h]

theorem exec_permit_sum (p : ℕ → PyFloat) (s : RunState) (sched : List Choice) :
    (exec p s sched).permits + (exec p s sched).inflight.length =
    s.permits + s.inflight.length := by
  induction sched generalizing s with
  | nil => rfl
  | cons c cs ih =>
      calc (exec p s (c :: cs)).permits + (exec p s (c :: cs)).inflight.length
          = (step p s c).permits + (step p s c).inflight.length := ih (step p s c)
        _ = s.permits + s.inflight.length := step_permit_sum p s c

theorem get_cons_eraseIdx_perm {α : Type} (l : List α) (k : ℕ)
    (h : k < l.length) :
    List.Perm (l.get ⟨k, h⟩ :: l.eraseIdx k) l := by
  induction l generalizing k with
  | nil => simp at h
  | cons a t ih =>
      cases k with
      | zero => simp [List.eraseIdx]
      | succ m =>
          have hm : m < t.length := by simpa using h
          have hswap : List.Perm (t.get ⟨m, hm⟩ :: a :: t.eraseIdx m)
              (a :: t.get ⟨m, hm⟩ :: t.eraseIdx m) :=
            List.Perm.swap a (t.get ⟨m, hm⟩) (t.eraseIdx m)
          exact List.Perm.trans hswap (List.Perm.cons a (ih m hm))

/-- The multiset of outcomes (finished results plus the outcomes the
running and queued attempts will produce) is preserved by every step. -/
theorem step_bag_perm (p : ℕ → PyFloat) (s : RunState) (c : Choice) :
    List.Perm
      ((step p s c).results ++ ((step p s c).inflight ++ (step p s c).queued).map p)
      (s.results ++ (s.inflight ++ s.queued).map p) := by
  cases c with
  | acquire =>
      obtain ⟨q, fl, r, n⟩ := s
      cases q with
      | nil => cases n <;> exact List.Perm.refl _
      | cons i q =>
          cases n with
          | zero => exact List.Perm.refl _
          | succ m =>
              simp only [step]
              apply List.Perm.append_left
              apply List.Perm.map
              simp
  | complete k =>
      by_cases h : k < s.inflight.length
      · simp only [step, dif_pos h, List.append_assoc, List.singleton_append,
          List.map_append]
        apply List.Perm.append_left
        have h1 : List.Perm
            (p (s.inflight.get ⟨k, h⟩) :: (s.inflight.eraseIdx k).map p)
            (s.inflight.map p) := by
          have := (get_cons_eraseIdx_perm s.inflight k h).map p
          simpa using this
        have h2 := List.Perm.append h1 (List.Perm.refl (s.queued.map p))
        simpa using h2
      · simp only [step, dif_neg h]
        exact List.Perm.refl _

theorem exec_bag_perm (p : ℕ → PyFloat) (s : RunState) (sched : List Choice) :
    List.Perm
      ((exec p s sched).results ++
        ((exec p s sched).inflight ++ (exec p s sched).queued).map p)
      (s.results ++ (s.inflight ++ s.queued).map p) := by
  induction sched generalizing s with
  | nil => exact List.Perm.refl _
  | cons c cs ih =>
      exact List.Perm.trans (ih (step p s c)) (step_bag_perm p s c)

/-- On any schedule that drives the runner to completion, the result list is
a permutation of the `count` individual attempt outcomes. -/
theorem runnerResults_perm (count : ℕ) (concurrency : ℤ) (burst : Bool)
    (p : ℕ → PyFloat) (sched : List Choice)
    (hf : runnerFinal count concurrency burst p sched = true) :
    List.Perm (runnerResults count concurrency burst p sched)
      ((List.range count).map p) := by
  unfold runnerFinal Final at hf
  unfold runnerResults
  have hbag := exec_bag_perm p (initState count (max 1 concurrency).toNat burst) sched
  rw [Bool.and_eq_true, List.isEmpty_iff, List.isEmpty_iff] at hf
  rw [hf.1, hf.2] at hbag
  simp only [List.append_nil, List.nil_append, List.map_nil] at hbag
  have hinit :
      ((initState count (max 1 concurrency).toNat burst).results ++
        ((initState count (max 1 concurrency).toNat burst).inflight ++
          (initState count (max 1 concurrency).toNat burst).queued).map p) =
      (List.range count).map p := by
    unfold initState
    cases burst <;> simp
  rw [hinit] at hbag
  simpa using hbag

/-! ### Helper lemmas about the ping primitives -/

theorem tcp_ping_reply_pong (e : TcpEnv) (r : String)
    (h : e.exch = TcpExchange.reply r) (hp : pyStrip r = "PONG") :
    tcp_ping e = PyFloat.num (e.tEnd - e.tStart) := by
  unfold tcp_ping
  rw [h]
  simp [hp]

theorem tcp_ping_fail (e : TcpEnv)
    (h : ∀ r, e.exch = TcpExchange.reply r → pyStrip r ≠ "PONG") :
    tcp_ping e = PyFloat.nan := by
  unfold tcp_ping
  cases hx : e.exch with
  | connectError => rfl
  | timeout => rfl
  | reply r => simp [h r hx]

theorem udp_ping_reply_pong (e : UdpEnv) (r : String)
    (h : e.exch = UdpExchange.reply r) (hp : pyStrip r = "PONG") :
    udp_ping e = PyFloat.num (e.tEnd - e.tStart) := by
  unfold udp_ping
  rw [h]
  simp [hp]

theorem udp_ping_fail (e : UdpEnv)
    (h : ∀ r, e.exch = UdpExchange.reply r → pyStrip r ≠ "PONG") :
    udp_ping e = PyFloat.nan := by
  unfold udp_ping
  cases hx : e.exch with
  | socketError => rfl
  | timeout => rfl
  | recvError => rfl
  | reply r => simp [h r hx]

theorem tcp_ping_of_fails (e : TcpEnv) (h : tcpEnvFails e = true) :
    tcp_ping e = PyFloat.nan := by
  apply tcp_ping_fail
  intro r hr
  unfold tcpEnvFails at h
  rw [hr] at h
  simpa using h

theorem udp_ping_of_fails (e : UdpEnv) (h : udpEnvFails e = true) :
    udp_ping e = PyFloat.nan := by
  apply udp_ping_fail
  intro r hr
  unfold udpEnvFails at h
  rw [hr] at h
  simpa using h

/-! ## Claims -/

/-- C2: each responder classifies an inbound request payload after trimming
surrounding whitespace: trimmed payload `"PING"` yields reply `"PONG"`,
anything else yields `"ERR"`; the stream server terminates its reply with
`"\n"` while the datagram server sends the bare literal. -/
theorem responder_classification (data : String) (hne : data ≠ "") :
    (pyStrip data = "PING" →
      handle_tcp data = [TcpAction.write "PONG\n", TcpAction.close] ∧
      datagram_received data = [UdpAction.sendto "PONG"]) ∧
    (pyStrip data ≠ "PING" →
      handle_tcp data = [TcpAction.write "ERR\n", TcpAction.close] ∧
      datagram_received data = [UdpAction.sendto "ERR"]) := by
  constructor
  · intro hp
    unfold handle_tcp datagram_received
    rw [if_neg hne, if_pos hp, if_pos hp]
    exact ⟨rfl, rfl⟩
  · intro hp
    unfold handle_tcp datagram_received
    rw [if_neg hne, if_neg hp, if_neg hp]
    exact ⟨rfl, rfl⟩

/-- Witness for C2 at the concrete payloads `" PING \n"` and `"hello"`. -/
theorem responder_classification_witness :
    handle_tcp " PING \n" = [TcpAction.write "PONG\n", TcpAction.close] ∧
    datagram_received "hello" = [UdpAction.sendto "ERR"] :=
  ⟨((responder_classification " PING \n" (by decide)).1 (by decide)).1,
   ((responder_classification "hello" (by decide)).2 (by decide)).2⟩

/-- C3: each ping primitive returns either a non-negative elapsed duration
(exactly when a reply arrives in time whose trimmed content is `"PONG"`) or
the NaN failure sentinel (any other content, timeout, connection or socket
error); no other value is ever returned.  The non-negativity hypotheses are
monotonicity of `time.perf_counter`. -/
theorem ping_result_classification (te : TcpEnv) (ue : UdpEnv)
    (ht : te.tStart ≤ te.tEnd) (hu : ue.tStart ≤ ue.tEnd) :
    ((∃ r, te.exch = TcpExchange.reply r ∧ pyStrip r = "PONG") →
      ∃ d : ℚ, tcp_ping te = PyFloat.num d ∧ 0 ≤ d) ∧
    ((¬ ∃ r, te.exch = TcpExchange.reply r ∧ pyStrip r = "PONG") →
      tcp_ping te = PyFloat.nan) ∧
    ((∃ r, ue.exch = UdpExchange.reply r ∧ pyStrip r = "PONG") →
      ∃ d : ℚ, udp_ping ue = PyFloat.num d ∧ 0 ≤ d) ∧
    ((¬ ∃ r, ue.exch = UdpExchange.reply r ∧ pyStrip r = "PONG") →
      udp_ping ue = PyFloat.nan) := by
  refine ⟨?_, ?_, ?_, ?_⟩
  · rintro ⟨r, hr, hp⟩
    exact ⟨te.tEnd - te.tStart, tcp_ping_reply_pong te r hr hp, by linarith⟩
  · intro hno
    apply tcp_ping_fail
    intro r hr hp
    exact hno ⟨r, hr, hp⟩
  · rintro ⟨r, hr, hp⟩
    exact ⟨ue.tEnd - ue.tStart, udp_ping_reply_pong ue r hr hp, by linarith⟩
  · intro hno
    apply udp_ping_fail
    intro r hr hp
    exact hno ⟨r, hr, hp⟩

/-- Witness for C3 at concrete exchange environments: a good `"PONG\n"`
reply and a timeout. -/
theorem ping_result_classification_witness :
    (∃ d : ℚ, tcp_ping ⟨TcpExchange.reply "PONG\n", 2, 5⟩ = PyFloat.num d ∧ 0 ≤ d) ∧
    udp_ping ⟨UdpExchange.timeout, 2, 5⟩ = PyFloat.nan := by
  have h := ping_result_classification ⟨TcpExchange.reply "PONG\n", 2, 5⟩
    ⟨UdpExchange.timeout, 2, 5⟩ (by norm_num) (by norm_num)
  exact ⟨h.1 ⟨"PONG\n", rfl, by decide⟩, h.2.2.2 (by rintro ⟨r, hr, hp⟩; cases hr)⟩

/-- C8: if the stream peer closes without sending any data (an empty read),
the server closes the connection without writing any reply. -/
theorem handle_tcp_empty_read : handle_tcp "" = [TcpAction.close] := by decide

/-- C10: the datagram server sends exactly one reply to every received
datagram; a zero-length datagram, or any datagram that trims to the empty
string, receives `"ERR"` — unlike the stream server, which writes nothing on
an empty read. -/
theorem udp_replies_to_empty_datagram :
    (∀ d : String, (datagram_received d).length = 1) ∧
    (∀ d : String, pyStrip d = "" → datagram_received d = [UdpAction.sendto "ERR"]) ∧
    datagram_received "" = [UdpAction.sendto "ERR"] ∧
    handle_tcp "" = [TcpAction.close] := by
  refine ⟨?_, ?_, by decide, by decide⟩
  · intro d
    unfold datagram_received
    split <;> rfl
  · intro d hd
    have hne : pyStrip d ≠ "PING" := by
      rw [hd]
      decide
    unfold datagram_received
    rw [if_neg hne]

/-- Witness for C10 at the concrete whitespace-only datagram `" "`. -/
theorem udp_replies_to_empty_datagram_witness :
    datagram_received " " = [UdpAction.sendto "ERR"] :=
  udp_replies_to_empty_datagram.2.1 " " (by decide)

/-- C1: for every `count ≥ 0` and every exchange environment, admission
policy and schedule on which the runner completes, `run_many` returns a list
of length exactly `count`; for `count = 0` it returns `[]` whatever the
exchange environment, without running any attempt. -/
theorem run_many_length (count concurrency : ℤ) (burst : Bool)
    (p : ℕ → PyFloat) (sched : List Choice)
    (h0 : 0 ≤ count)
    (hf : runnerFinal count.toNat concurrency burst p sched = true) :
    ((run_many count concurrency burst p sched).length : ℤ) = count ∧
    (count = 0 → ∀ (q : ℕ → PyFloat) (sched2 : List Choice),
      run_many count concurrency burst q sched2 = []) := by
  constructor
  · by_cases hc : count ≤ 0
    · have hz : count = 0 := le_antisymm hc h0
      subst hz
      simp [run_many]
    · rw [run_many, if_neg hc]
      have hperm := runnerResults_perm count.toNat concurrency burst p sched hf
      have hlen := hperm.length_eq
      rw [List.length_map, List.length_range] at hlen
      rw [hlen]
      omega
  · intro hz q sched2
    subst hz
    simp [run_many]

/-- Witness for C1: two throttled attempts at concurrency 1, run to
completion on an explicit schedule. -/
theorem run_many_length_witness :
    ((run_many 2 1 false (fun _ => PyFloat.nan)
        [Choice.acquire, Choice.complete 0, Choice.acquire, Choice.complete 0]).length : ℤ)
      = 2 ∧
    ((2 : ℤ) = 0 → ∀ (q : ℕ → PyFloat) (sched2 : List Choice),
      run_many 2 1 false q sched2 = []) :=
  run_many_length 2 1 false (fun _ => PyFloat.nan)
    [Choice.acquire, Choice.complete 0, Choice.acquire, Choice.complete 0]
    (by decide) (by decide)

/-- C4: in throttled mode the number of simultaneously in-flight attempts
never exceeds the concurrency limit, at every point of every schedule; the
permit-accounting equation `permits + inflight = concurrencyLimit` holds
throughout (each admission takes one permit before the exchange starts), and
completing any in-flight exchange releases exactly one permit regardless of
the outcome the environment `p` assigns to it. -/
theorem run_many_throttled_bound (count : ℕ) (concurrency : ℤ)
    (hc : 1 ≤ concurrency) (p : ℕ → PyFloat) (sched : List Choice) :
    (((exec p (initState count (max 1 concurrency).toNat false) sched).inflight.length : ℤ)
        ≤ concurrency) ∧
    (((exec p (initState count (max 1 concurrency).toNat false) sched).permits : ℤ) +
        (exec p (initState count (max 1 concurrency).toNat false) sched).inflight.length
      = concurrency) ∧
    (∀ (s : RunState) (k : ℕ), k < s.inflight.length →
      (step p s (Choice.complete k)).permits = s.permits + 1) := by
  have h1 : (exec p (initState count (max 1 concurrency).toNat false) sched).permits +
      (exec p (initState count (max 1 concurrency).toNat false) sched).inflight.length =
      (max 1 concurrency).toNat := by
    rw [exec_permit_sum]
    simp [initState]
  have h2 : ((max 1 concurrency).toNat : ℤ) = concurrency := by
    rw [max_eq_right hc]
    exact Int.toNat_of_nonneg (by omega)
  refine ⟨by omega, by omega, ?_⟩
  intro s k hk
  simp only [step, dif_pos hk]

/-- Witness for C4: one throttled attempt at concurrency 2, observed after
admission (one attempt in flight, one permit left). -/
theorem run_many_throttled_bound_witness :
    (((exec (fun _ => PyFloat.nan) (initState 1 (max 1 (2 : ℤ)).toNat false)
        [Choice.acquire]).inflight.length : ℤ) ≤ 2) ∧
    (((exec (fun _ => PyFloat.nan) (initState 1 (max 1 (2 : ℤ)).toNat false)
        [Choice.acquire]).permits : ℤ) +
      (exec (fun _ => PyFloat.nan) (initState 1 (max 1 (2 : ℤ)).toNat false)
        [Choice.acquire]).inflight.length = 2) ∧
    (∀ (s : RunState) (k : ℕ), k < s.inflight.length →
      (step (fun _ => PyFloat.nan) s (Choice.complete k)).permits = s.permits + 1) :=
  run_many_throttled_bound 1 2 (by decide) (fun _ => PyFloat.nan) [Choice.acquire]

/-- C5: every failure of an individual attempt — connect failure, timeout,
reply-content mismatch, socket creation failure, receive error — degrades to
the NaN sentinel in the result list; the runner still completes with a
permutation of all `count` attempt outcomes (full length, no aborted
siblings), for both the TCP and the UDP client. -/
theorem run_many_failures_degrade (count : ℕ) (concurrency : ℤ) (burst : Bool)
    (tenv : ℕ → TcpEnv) (uenv : ℕ → UdpEnv) (ts us : List Choice)
    (hT : runnerFinal count concurrency burst (fun i => tcp_ping (tenv i)) ts = true)
    (hU : runnerFinal count concurrency burst (fun i => udp_ping (uenv i)) us = true) :
    (List.Perm (runnerResults count concurrency burst (fun i => tcp_ping (tenv i)) ts)
        ((List.range count).map (fun i => tcp_ping (tenv i))) ∧
      (runnerResults count concurrency burst (fun i => tcp_ping (tenv i)) ts).length
        = count ∧
      ∀ i, i < count → tcpEnvFails (tenv i) = true →
        tcp_ping (tenv i) = PyFloat.nan ∧
        PyFloat.nan ∈ runnerResults count concurrency burst
          (fun i => tcp_ping (tenv i)) ts) ∧
    (List.Perm (runnerResults count concurrency burst (fun i => udp_ping (uenv i)) us)
        ((List.range count).map (fun i => udp_ping (uenv i))) ∧
      (runnerResults count concurrency burst (fun i => udp_ping (uenv i)) us).length
        = count ∧
      ∀ i, i < count → udpEnvFails (uenv i) = true →
        udp_ping (uenv i) = PyFloat.nan ∧
        PyFloat.nan ∈ runnerResults count concurrency burst
          (fun i => udp_ping (uenv i)) us) := by
  have hpT := runnerResults_perm count concurrency burst (fun i => tcp_ping (tenv i)) ts hT
  have hpU := runnerResults_perm count concurrency burst (fun i => udp_ping (uenv i)) us hU
  constructor
  · refine ⟨hpT, ?_, ?_⟩
    · have := hpT.length_eq
      rwa [List.length_map, List.length_range] at this
    · intro i hi hfail
      have hnan := tcp_ping_of_fails (tenv i) hfail
      refine ⟨hnan, ?_⟩
      apply hpT.mem_iff.mpr
      apply List.mem_map.mpr
      exact ⟨i, List.mem_range.mpr hi, hnan⟩
  · refine ⟨hpU, ?_, ?_⟩
    · have := hpU.length_eq
      rwa [List.length_map, List.length_range] at this
    · intro i hi hfail
      have hnan := udp_ping_of_fails (uenv i) hfail
      refine ⟨hnan, ?_⟩
      apply hpU.mem_iff.mpr
      apply List.mem_map.mpr
      exact ⟨i, List.mem_range.mpr hi, hnan⟩

/-- Witness for C5: one TCP attempt that hits a connect failure and one UDP
attempt that hits a socket creation failure; both runs complete and the
sentinel lands in each result list. -/
theorem run_many_failures_degrade_witness :
    tcp_ping ⟨TcpExchange.connectError, 0, 0⟩ = PyFloat.nan ∧
    PyFloat.nan ∈ runnerResults 1 1 false
      (fun i => tcp_ping ((fun _ => (⟨TcpExchange.connectError, 0, 0⟩ : TcpEnv)) i))
      [Choice.acquire, Choice.complete 0] :=
  (run_many_failures_degrade 1 1 false
      (fun _ => ⟨TcpExchange.connectError, 0, 0⟩)
      (fun _ => ⟨UdpExchange.socketError, 0, 0⟩)
      [Choice.acquire, Choice.complete 0] [Choice.acquire, Choice.complete 0]
      (by decide) (by decide)).1.2.2 0 (by decide) (by decide)

/-- C6: in burst mode `run_many` launches all attempts at once with no
admission control and its behaviour is independent of the concurrency
argument: two runs differing only in concurrency are identical. -/
theorem run_many_burst_ignores_concurrency (count c1 c2 : ℤ)
    (p : ℕ → PyFloat) (sched : List Choice) :
    run_many count c1 true p sched = run_many count c2 true p sched := by
  simp [run_many, runnerResults, initState]

/-- C7 counterexample: on a successful exchange, `tcp_ping` does not open
the connection before recording the start time, and `udp_ping` does not
create the socket before recording the start time — both record the start
time first, contrary to the claim. -/
theorem ping_start_after_setup_counterexample :
    ¬ before PingAct.openConnection PingAct.recordStart
        (tcp_ping_trace ⟨TcpExchange.reply "PONG", 0, 1⟩) ∧
    ¬ before PingAct.createSocket PingAct.recordStart
        (udp_ping_trace ⟨UdpExchange.reply "PONG", 0, 1⟩) := by
  unfold before
  decide

/-- C7 (amended): each ping primitive records its start time before its
transport is set up — the stream ping records start, then opens the
connection, then writes; the datagram ping records start, then creates the
socket, then sends — so the returned RTT `end − start` includes transport
setup time; on a trimmed-`"PONG"` reply the result is exactly
`end − start`. -/
theorem ping_start_before_setup (te : TcpEnv) (ue : UdpEnv) :
    before PingAct.recordStart PingAct.openConnection (tcp_ping_trace te) ∧
    before PingAct.recordStart PingAct.writeMessage (tcp_ping_trace te) ∧
    before PingAct.recordStart PingAct.createSocket (udp_ping_trace ue) ∧
    before PingAct.recordStart PingAct.sendDatagram (udp_ping_trace ue) ∧
    (∀ r, te.exch = TcpExchange.reply r → pyStrip r = "PONG" →
      tcp_ping te = PyFloat.num (te.tEnd - te.tStart)) ∧
    (∀ r, ue.exch = UdpExchange.reply r → pyStrip r = "PONG" →
      udp_ping ue = PyFloat.num (ue.tEnd - ue.tStart)) := by
  refine ⟨?_, ?_, ?_, ?_, ?_, ?_⟩
  · exact before_of_head _ _ _ (by decide)
  · exact before_of_head _ _ _ (by decide)
  · exact before_of_head _ _ _ (by decide)
  · exact before_of_head _ _ _ (by decide)
  · intro r hr hp
    exact tcp_ping_reply_pong _ r hr hp
  · intro r hr hp
    exact udp_ping_reply_pong _ r hr hp

/-- Witness for C7 (amended) on a concrete successful exchange. -/
theorem ping_start_before_setup_witness :
    before PingAct.recordStart PingAct.openConnection
      (tcp_ping_trace ⟨TcpExchange.reply "PONG", 0, 1⟩) ∧
    tcp_ping ⟨TcpExchange.reply "PONG", 0, 1⟩ = PyFloat.num (1 - 0) :=
  ⟨(ping_start_before_setup ⟨TcpExchange.reply "PONG", 0, 1⟩
      ⟨UdpExchange.reply "PONG", 0, 1⟩).1,
   (ping_start_before_setup ⟨TcpExchange.reply "PONG", 0, 1⟩
      ⟨UdpExchange.reply "PONG", 0, 1⟩).2.2.2.2.1 "PONG" rfl (by decide)⟩

/-- C9: for every concurrency argument `c ≤ 0` the runner clamps the limit
(`concurrency = max(1, concurrency)`) and behaves identically to a run with
concurrency 1, all other arguments equal. -/
theorem run_many_clamps_concurrency (c : ℤ) (hc : c ≤ 0) (count : ℤ)
    (burst : Bool) (p : ℕ → PyFloat) (sched : List Choice) :
    run_many count c burst p sched = run_many count 1 burst p sched := by
  have h1 : max 1 c = 1 := max_eq_left (by omega)
  simp [run_many, runnerResults, h1]

/-- Witness for C9 at concurrency `-5`. -/
theorem run_many_clamps_concurrency_witness :
    run_many 2 (-5) false (fun _ => PyFloat.nan) [Choice.acquire] =
    run_many 2 1 false (fun _ => PyFloat.nan) [Choice.acquire] :=
  run_many_clamps_concurrency (-5) (by decide) 2 false (fun _ => PyFloat.nan)
    [Choice.acquire]

end Netlab
